import Mathlib

/-!
Verification development for the `cao` command-line assistant
(interactive conversation session engine, display-width text wrapper,
bordered panel renderer, and AI completion client).

Strings are modelled as lists of Unicode scalar values (`List Char`),
so that every operation is structurally recursive and executable.
Python semantics are embedded faithfully from the source files:
  - src/zhouatie_cao/cli/interactive.py  (session loop, context, personas)
  - src/zhouatie_cao/utils/terminal.py   (wrapper, normal-mode renderer)
  - src/zhouatie_cao/main.py             (one-shot renderer copy)
  - src/zhouatie_cao/ai_client.py        (completion client)
-/

set_option autoImplicit false

/-- Python strings are modelled as lists of Unicode scalar values. -/
abbrev Str : Type := List Char

/-- Whitespace set stripped by Python `str.strip()` (ASCII portion). -/
def pyIsSpace (c : Char) : Bool :=
  c = ' ' || c = '\t' || c = '\n' || c = '\r' || c = '\x0b' || c = '\x0c'

/-- Python `str.lstrip()`: drop leading whitespace. -/
def pyLStrip (s : Str) : Str := s.dropWhile pyIsSpace

/-- Python `str.rstrip()`: drop trailing whitespace. -/
def pyRStrip (s : Str) : Str := (s.reverse.dropWhile pyIsSpace).reverse

/-- Python `str.strip()`: drop leading and trailing whitespace. -/
def pyStrip (s : Str) : Str := pyRStrip (pyLStrip s)

/-- Python `str.lower()` (ASCII case folding, which covers every use here). -/
def pyLower (s : Str) : Str := s.map Char.toLower

/-- Python `s.startswith("/")`. -/
def startsWithSlash : Str → Bool
  | '/' :: _ => true
  | _ => false

/-- Python `s.split(sep, 1)`: the part before the first separator, and
the remainder after it when the separator occurs. -/
def splitOnce (sep : Char) : Str → Str × Option Str
  | [] => ([], none)
  | c :: cs =>
    if c = sep then ([], some cs)
    else
      let r := splitOnce sep cs
      (c :: r.1, r.2)

/-- Python `s.split(sep)` for a single-character separator: keeps empty
pieces, and yields `[""]` on the empty string. -/
def splitOnChar (sep : Char) : Str → List Str
  | [] => [[]]
  | c :: cs =>
    if c = sep then [] :: splitOnChar sep cs
    else
      match splitOnChar sep cs with
      | [] => [[c]]
      | h :: t => (c :: h) :: t

/-- Python `"\n".join(lines)`. -/
def joinNewlines : List Str → Str
  | [] => []
  | [l] => l
  | l :: ls => l ++ '\n' :: joinNewlines ls

/-- Display width of one code point: 2 when `ord(char) > 127`, else 1
(utils/terminal.py, `get_string_display_width` body). -/
def charWidth (c : Char) : Nat := if 127 < c.toNat then 2 else 1

/-- Display width of a string (utils/terminal.py lines 68-77,
`get_string_display_width`). -/
def get_string_display_width (s : Str) : Nat := (s.map charWidth).sum

/-- Character-granularity greedy wrap loop
(utils/terminal.py lines 100-109): accumulate characters while the
candidate line still fits, otherwise flush the accumulated line and
restart from the current character; the final accumulated line is
appended only when non-empty. -/
def charWrapGo (cw : Nat) (cur : Str) : Str → List Str
  | [] => if cur = [] then [] else [cur]
  | c :: cs =>
    if get_string_display_width (cur ++ [c]) ≤ cw then
      charWrapGo cw (cur ++ [c]) cs
    else
      cur :: charWrapGo cw [c] cs

/-- Candidate line of the word-granularity wrap
(utils/terminal.py line 115): the next word, re-inserting a single space
unless the accumulated line is empty. -/
def testLine (cur w : Str) : Str := if cur = [] then w else cur ++ ' ' :: w

/-- Word-granularity greedy wrap loop (utils/terminal.py lines 111-122):
accumulate words while the candidate line still fits; on overflow the
accumulated line is flushed (even when empty) and the current word
starts the next line; the final accumulated line is appended only when
non-empty. -/
def wordWrapGo (cw : Nat) (cur : Str) : List Str → List Str
  | [] => if cur = [] then [] else [cur]
  | w :: ws =>
    if get_string_display_width (testLine cur w) ≤ cw then
      wordWrapGo cw (testLine cur w) ws
    else
      cur :: wordWrapGo cw w ws

/-- Wrapping of a single newline-free segment
(utils/terminal.py lines 92-122): a segment that fits is emitted
unchanged; otherwise character-granularity wrap when any code point
exceeds 127, else word-granularity wrap over the space-split words. -/
def processLine (cw : Nat) (line : Str) : List Str :=
  if get_string_display_width line ≤ cw then [line]
  else if line.any (fun c => 127 < c.toNat) then
    charWrapGo cw [] line
  else
    wordWrapGo cw [] (splitOnChar ' ' line)

/-- Display-width text wrapper (utils/terminal.py lines 80-124,
`_process_text_to_lines`): split on newlines, wrap each segment, and
concatenate all produced lines. -/
def process_text_to_lines (cw : Nat) (text : Str) : List Str :=
  (splitOnChar '\n' text).flatMap (processLine cw)

/-- Content width of the bordered normal-mode renderer in
utils/terminal.py line 134 (`_print_normal_mode`): `terminal_width - 4`,
with no further cap. -/
def print_normal_mode_content_width (terminal_width : Int) : Int :=
  terminal_width - 4

/-- Content width of the bordered renderer in main.py line 463
(`print_with_borders`): `min(terminal_width - 4, 100)`. -/
def main_print_with_borders_content_width (terminal_width : Int) : Int :=
  min (terminal_width - 4) 100

/-- Conversation message: a `{"role": ..., "content": ...}` dict. -/
structure Message where
  role : Str
  content : Str
deriving DecidableEq, Repr

/-- Role literal `"system"`. -/
def sysRole : Str := "system".data

/-- Role literal `"user"`. -/
def userRole : Str := "user".data

/-- Role literal `"assistant"`. -/
def assistantRole : Str := "assistant".data

/-- Number of `system` messages in a context. -/
def countSystem (ctx : List Message) : Nat :=
  ctx.countP (fun m => m.role == sysRole)

/-- Context compaction (interactive.py lines 376-384): when the history
exceeds 20 messages, keep every `system` message followed by the 10 most
recent messages (`conversation_context[-10:]`); otherwise unchanged. -/
def compact_context (ctx : List Message) : List Message :=
  if 20 < ctx.length then
    ctx.filter (fun m => m.role == sysRole) ++ ctx.drop (ctx.length - 10)
  else ctx

/-- Persona switch (interactive.py lines 207-213 and 288-294): replace
the content of the first `system` message in place and stop (the Python
loop breaks after the first match); every other message is untouched. -/
def switch_persona (prompt : Str) : List Message → List Message
  | [] => []
  | m :: ms =>
    if m.role == sysRole then ⟨sysRole, prompt⟩ :: ms
    else m :: switch_persona prompt ms

/-- Persona record (interactive.py lines 76-137): display name, emoji,
system prompt and greeting. -/
structure Persona where
  name : Str
  emoji : Str
  system_prompt : Str
  greeting : Str

/-- Persona `"default"` (interactive.py lines 77-91). -/
def defaultPersona : Persona :=
  { name := "小草".data
    emoji := "🌱".data
    system_prompt := ("你是小草 (cao)，一个友好、幽默的编程助手。\n            你的性格特点：\n            1. 轻松幽默，善于活跃气氛\n            2. 对编程知识了如指掌，但表达方式轻松不严肃\n            3. 能理解程序员的苦恼和笑话\n            4. 善于用比喻和例子解释复杂概念\n            5. 有时会开一些程序员才懂的玩笑\n\n            请以轻松自然的口吻与用户交流，像朋友一样陪伴他们编程。如果用户提出技术问题，请提供准确但不呆板的解答。\n            ").data
    greeting := "嗨！我是小草 🌱，你的编程闲聊伙伴！今天想聊点什么？技术问题、开发困扰，还是只是想放松一下大脑？我随时准备陪你唠嗑～".data }

/-- Persona `"frontend"` (interactive.py lines 92-106). -/
def frontendPersona : Persona :=
  { name := "前端专家".data
    emoji := "🧑‍💻".data
    system_prompt := ("你是一位资深前端开发工程师，拥有多年的前端开发经验。\n            你精通：\n            1. 现代JavaScript框架(React, Vue, Angular等)\n            2. CSS预处理器和现代布局技术\n            3. 前端性能优化和最佳实践\n            4. 响应式设计和移动端开发\n            5. 前端工程化和构建工具\n\n            请以专业、有深度但友好的方式回答用户关于前端开发的所有问题，提供具体的代码示例和实用建议。\n            ").data
    greeting := "你好！我是前端专家 🧑‍💻，很高兴能协助你解决前端开发问题。无论是React组件设计、CSS布局难题，还是性能优化建议，我都能提供专业支持。有什么我能帮到你的吗？".data }

/-- Persona `"backend"` (interactive.py lines 107-121). -/
def backendPersona : Persona :=
  { name := "后端专家".data
    emoji := "🧑‍💻".data
    system_prompt := ("你是一位资深后端开发工程师，拥有丰富的系统架构和API设计经验。\n            你精通：\n            1. 服务器端编程语言(Python, Java, Go等)\n            2. 数据库设计和优化(SQL和NoSQL)\n            3. 微服务架构和API设计\n            4. 高并发、高可用系统设计\n            5. 安全最佳实践和性能调优\n\n            请以专业、有深度但友好的方式回答用户关于后端开发的所有问题，提供具体的代码示例和实用建议。\n            ").data
    greeting := "你好！我是后端专家 🔧，很高兴能协助你解决后端开发问题。无论是系统架构设计、数据库优化，还是API接口规范，我都能提供专业支持。有什么技术难题需要我帮助吗？".data }

/-- Persona `"secretary"` (interactive.py lines 122-136). -/
def secretaryPersona : Persona :=
  { name := "智能秘书".data
    emoji := "📝".data
    system_prompt := ("你是一位高效、贴心的智能秘书，擅长帮助用户管理生活与工作。\n            你的专长：\n            1. 日程安排和时间管理\n            2. 任务分解和优先级排序\n            3. 信息整理和总结\n            4. 提供生活和工作建议\n            5. 情感支持和积极鼓励\n\n            请以体贴、专业、高效的方式帮助用户处理各种生活和工作上的事务，提供实用的建议和解决方案。\n            ").data
    greeting := "你好！我是你的智能秘书 📝，随时准备帮你安排日程、整理任务、提供建议。无论是工作计划还是生活安排，我都能为你提供贴心的支持。今天有什么我可以帮到你的吗？".data }

/-- Static persona registry `roles` (interactive.py lines 76-137). -/
def roles : List (Str × Persona) :=
  [("default".data, defaultPersona),
   ("frontend".data, frontendPersona),
   ("backend".data, backendPersona),
   ("secretary".data, secretaryPersona)]

/-- Python `cmd in roles` / `roles[cmd]` lookup. -/
def findRole (cmd : Str) : Option Persona := roles.lookup cmd

/-- Seeded conversation context (interactive.py lines 141-152): the
default persona's system prompt plus its greeting as an assistant turn. -/
def initial_conversation_context : List Message :=
  [⟨sysRole, defaultPersona.system_prompt⟩,
   ⟨assistantRole, defaultPersona.greeting⟩]

/-- Exit tokens accepted by the session loop (interactive.py line 185). -/
def exitTokens : List Str :=
  ["/exit".data, "/quit".data, "exit".data, "quit".data]

/-- Exit test (interactive.py line 185):
`user_input.strip().lower() in ["/exit", "/quit", "exit", "quit"]`. -/
def isExitInput (input : Str) : Bool :=
  exitTokens.contains (pyLower (pyStrip input))

/-- Slash-command test (interactive.py line 190):
`user_input.strip().startswith("/")`. -/
def isSlashInput (input : Str) : Bool :=
  startsWithSlash (pyStrip input)

/-- Usage notice printed by interactive.py line 199. -/
def usage_notice (cmd : Str) : Str :=
  "\n请在命令后输入内容，例如：/".data ++ cmd ++ " 你好\n".data

/-- Unknown-command notice printed by interactive.py line 305. -/
def unknown_command_notice (input : Str) : Str :=
  "\n未知命令: ".data ++ input ++ "\n".data

/-- Persona-switch notice printed by interactive.py lines 297-300. -/
def switch_notice (p : Persona) : Str :=
  "已切换到 ".data ++ p.name ++ " ".data ++ p.emoji ++ " 模式".data

/-- Apology text prepended to a dispatch error
(interactive.py lines 265 and 359). -/
def apology_msg : Str := "抱歉，我遇到了一些问题: ".data

/-- Observable outcome of one iteration of the session loop. -/
structure TurnOutput where
  newRole : Str
  newCtx : List Message
  dispatched : Bool
  terminated : Bool
  notice : Option Str
deriving DecidableEq, Repr

/-- One iteration of the interactive session loop
(interactive.py lines 174-384), given the resolved AI response text that
a dispatch would deliver.  Branches, in source order: exit tokens;
slash commands (inline persona switch with message — which appends the
user and assistant turns and `continue`s WITHOUT the trimming block —,
switch-only, usage notice for empty remainder, unknown command); empty
input; plain message (append user turn, dispatch, append assistant turn,
then apply the length-20/keep-10 trimming). -/
def stepTurn (curRole : Str) (ctx : List Message) (input : Str)
    (aiResponse : Str) : TurnOutput :=
  if isExitInput input then
    ⟨curRole, ctx, false, true, none⟩
  else if isSlashInput input then
    let p := splitOnce ' ' ((pyStrip input).drop 1)
    let cmd := pyLower p.1
    match p.2 with
    | some rest =>
      match findRole cmd with
      | some persona =>
        let content := pyStrip rest
        if content = [] then
          ⟨curRole, ctx, false, false, some (usage_notice cmd)⟩
        else
          ⟨cmd,
           switch_persona persona.system_prompt ctx
             ++ [⟨userRole, content⟩, ⟨assistantRole, aiResponse⟩],
           true, false, none⟩
      | none => ⟨curRole, ctx, false, false, some (unknown_command_notice input)⟩
    | none =>
      match findRole cmd with
      | some persona =>
        ⟨cmd, switch_persona persona.system_prompt ctx, false, false,
         some (switch_notice persona)⟩
      | none => ⟨curRole, ctx, false, false, some (unknown_command_notice input)⟩
  else if pyStrip input = [] then
    ⟨curRole, ctx, false, false, none⟩
  else
    ⟨curRole,
     compact_context (ctx ++ [⟨userRole, input⟩, ⟨assistantRole, aiResponse⟩]),
     true, false, none⟩

/-- Concrete 21-message context: one system message and 20 user turns. -/
def long_context : List Message :=
  ⟨sysRole, defaultPersona.system_prompt⟩ ::
    List.replicate 20 ⟨userRole, "x".data⟩

/-- Concrete context consisting of 21 system messages. -/
def all_system_context : List Message :=
  List.replicate 21 ⟨sysRole, []⟩

/-- Scan for the first occurrence of `pat` and return what follows it
(the model of a non-greedy regex match of `pat` at the earliest
position). -/
def findDropSuffix (pat : Str) : Str → Option Str
  | [] => if pat.isEmpty then some [] else none
  | c :: cs =>
    if pat.isPrefixOf (c :: cs) then some ((c :: cs).drop pat.length)
    else findDropSuffix pat cs

/-- Think-tag filter (ai_client.py lines 16-32, `filter_think_tags`):
`re.sub(r'^<think>.*?</think>\s*', '', content, flags=re.DOTALL)`
followed by `str.strip()`.  The anchored non-greedy match removes a
leading `<think>` tag through the first following `</think>` plus any
whitespace after it; when the pattern does not match the content is left
unchanged before the final strip. -/
def filter_think_tags (content : Str) : Str :=
  let afterSub :=
    if "<think>".data.isPrefixOf content then
      match findDropSuffix "</think>".data (content.drop 7) with
      | some rest => rest.dropWhile pyIsSpace
      | none => content
    else content
  pyStrip afterSub

/-- Parsed shape of a 200-status JSON body, as far as `call_ai_api`
inspects it: `result["message"]["content"]` when the `message` object
with a `content` key exists, and
`result["choices"][0]["message"]["content"]` when that path exists. -/
structure ApiResponse where
  messageContent : Option Str
  choicesContent : Option Str

/-- Outcome of the HTTP POST inside `call_ai_api`'s `try` block: an
exception raised during the request or JSON decoding (caught on
ai_client.py line 217), a non-200 status with its body text, or a
200 status with a parsed body. -/
inductive HttpOutcome where
  | exn (msg : Str)
  | badStatus (code : Nat) (text : Str)
  | ok (resp : ApiResponse)

/-- Return value of `call_ai_api` (ai_client.py lines 161-219) as a
function of the HTTP outcome and of whether the Ollama format is
selected (`"localhost" in api_base or "127.0.0.1" in api_base`).
Failures inside the `try` block are caught and RETURNED as strings; the
three success paths each apply `filter_think_tags` to the extracted
content; a missing `choices` path in the OpenAI branch raises a
`KeyError` that the same `except` clause converts to a returned string. -/
def call_ai_api (isLocal : Bool) (o : HttpOutcome) : Str :=
  match o with
  | .exn m => "调用 AI API 时出错: ".data ++ m
  | .badStatus code text =>
    "API 请求失败 (状态码: ".data ++ (toString code).data ++ "): ".data ++ text
  | .ok resp =>
    if isLocal then
      match resp.messageContent with
      | some content => filter_think_tags content
      | none =>
        filter_think_tags (resp.choicesContent.getD "无法解析 Ollama API 响应".data)
    else
      match resp.choicesContent with
      | some content => filter_think_tags content
      | none => "调用 AI API 时出错: ".data ++ "'choices'".data

/-- Content that a successful (200-status) response resolves to before
any normalization, in each parsing branch of `call_ai_api`: the Ollama
`message.content` field, the Ollama fallback through `choices` with its
default string, or the OpenAI `choices[0].message.content` field (absent
when the OpenAI path would raise instead). -/
def success_content (isLocal : Bool) (resp : ApiResponse) : Option Str :=
  if isLocal then
    some (match resp.messageContent with
          | some c => c
          | none => resp.choicesContent.getD "无法解析 Ollama API 响应".data)
  else resp.choicesContent

/-- Shared result slot written by the background worker
(interactive.py lines 227 and 321):
`{"ai_response": None, "error": None, "done": False}` after completion. -/
structure ResponseResult where
  ai_response : Option Str
  error : Option Str
  done : Bool
deriving DecidableEq, Repr

/-- Background worker body (interactive.py lines 230-240 and 324-334):
a normal return of `call_ai_api` is stored in `ai_response`; an
exception raised by `call_ai_api` is stored in `error` as its string;
`done` is set in both cases. -/
def api_call_thread (outcome : Except Str Str) : ResponseResult :=
  match outcome with
  | .ok r => ⟨some r, none, true⟩
  | .error e => ⟨none, some e, true⟩

/-- Dispatch whose HTTP layer produced `o`: `call_ai_api` handles `o`
internally and returns normally, so the worker stores the returned
string in `ai_response`. -/
def dispatch_request (isLocal : Bool) (o : HttpOutcome) : ResponseResult :=
  api_call_thread (Except.ok (call_ai_api isLocal o))

/-- Foreground resolution of the shared result slot
(interactive.py lines 264-267 and 358-361): a truthy (non-empty) error
string yields the apology text followed by the error; otherwise the
stored response is used. -/
def resolve_response (r : ResponseResult) : Option Str :=
  match r.error with
  | some e => if e = [] then r.ai_response else some (apology_msg ++ e)
  | none => r.ai_response

lemma width_append (l1 l2 : Str) :
    get_string_display_width (l1 ++ l2) =
      get_string_display_width l1 + get_string_display_width l2 := by
  simp [get_string_display_width]

lemma dropWhile_append_ite (p : Char → Bool) (l1 l2 : Str) :
    (l1 ++ l2).dropWhile p =
      if (l1.dropWhile p).isEmpty then l2.dropWhile p
      else l1.dropWhile p ++ l2 := by
  induction l1 with
  | nil => simp
  | cons a l1 ih =>
    by_cases ha : p a
    · simpa [List.dropWhile, ha] using ih
    · simp [List.dropWhile, ha]

lemma pyStrip_append_spaces (s trail : Str)
    (h : ∀ c ∈ trail, pyIsSpace c = true) :
    pyStrip (s ++ trail) = pyStrip s := by
  have htrail : trail.dropWhile pyIsSpace = [] :=
    List.dropWhile_eq_nil_iff.mpr h
  have htrailr : trail.reverse.dropWhile pyIsSpace = [] :=
    List.dropWhile_eq_nil_iff.mpr (fun x hx => h x (List.mem_reverse.mp hx))
  unfold pyStrip pyLStrip pyRStrip
  rw [dropWhile_append_ite]
  by_cases hs : (s.dropWhile pyIsSpace).isEmpty
  · rw [if_pos hs, htrail]
    have hs' : s.dropWhile pyIsSpace = [] := by
      simpa [List.isEmpty_iff] using hs
    rw [hs']
  · rw [if_neg hs, List.reverse_append, dropWhile_append_ite, htrailr]
    simp

lemma splitOnChar_ne_nil (sep : Char) : ∀ l : Str, splitOnChar sep l ≠ []
  | [] => by simp [splitOnChar]
  | c :: cs => by
    unfold splitOnChar
    by_cases h : c = sep
    · simp [h]
    · simp only [h, if_false]
      cases hcs : splitOnChar sep cs <;> simp

lemma not_mem_of_mem_splitOnChar (sep : Char) :
    ∀ (l : Str) (p : Str), p ∈ splitOnChar sep l → sep ∉ p := by
  intro l
  induction l with
  | nil => intro p hp; simp [splitOnChar] at hp; simp [hp]
  | cons c cs ih =>
    intro p hp
    unfold splitOnChar at hp
    by_cases h : c = sep
    · simp only [h, if_true] at hp
      rcases List.mem_cons.mp hp with h1 | h1
      · simp [h1]
      · exact ih p h1
    · simp only [h, if_false] at hp
      cases hcs : splitOnChar sep cs with
      | nil => exact absurd hcs (splitOnChar_ne_nil sep cs)
      | cons q qs =>
        rw [hcs] at hp
        rcases List.mem_cons.mp hp with h1 | h1
        · subst h1
          intro hmem
          rcases List.mem_cons.mp hmem with h2 | h2
          · exact h h2.symm
          · exact ih q (hcs ▸ List.mem_cons_self q qs) h2
        · exact ih p (hcs ▸ List.mem_cons_of_mem q h1)

lemma mem_of_mem_splitOnChar (sep : Char) :
    ∀ (l : Str) (p : Str), p ∈ splitOnChar sep l → ∀ c ∈ p, c ∈ l := by
  intro l
  induction l with
  | nil => intro p hp; simp [splitOnChar] at hp; simp [hp]
  | cons a cs ih =>
    intro p hp c hc
    unfold splitOnChar at hp
    by_cases h : a = sep
    · simp only [h, if_true] at hp
      rcases List.mem_cons.mp hp with h1 | h1
      · subst h1; simp at hc
      · exact List.mem_cons_of_mem a (ih p h1 c hc)
    · simp only [h, if_false] at hp
      cases hcs : splitOnChar sep cs with
      | nil => exact absurd hcs (splitOnChar_ne_nil sep cs)
      | cons q qs =>
        rw [hcs] at hp
        rcases List.mem_cons.mp hp with h1 | h1
        · subst h1
          rcases List.mem_cons.mp hc with h2 | h2
          · exact h2 ▸ List.mem_cons_self a cs
          · exact List.mem_cons_of_mem a
              (ih q (hcs ▸ List.mem_cons_self q qs) c h2)
        · exact List.mem_cons_of_mem a
            (ih p (hcs ▸ List.mem_cons_of_mem q h1) c hc)

lemma splitOnChar_eq_self (sep : Char) :
    ∀ l : Str, sep ∉ l → splitOnChar sep l = [l] := by
  intro l
  induction l with
  | nil => intro _; simp [splitOnChar]
  | cons a cs ih =>
    intro h
    have ha : ¬ a = sep := fun he => h (he ▸ List.mem_cons_self a cs)
    have hcs : splitOnChar sep cs = [cs] :=
      ih (fun hm => h (List.mem_cons_of_mem a hm))
    unfold splitOnChar
    simp [ha, hcs]

lemma splitOnChar_append_cons (sep : Char) :
    ∀ (l r : Str), sep ∉ l →
      splitOnChar sep (l ++ sep :: r) = l :: splitOnChar sep r := by
  intro l
  induction l with
  | nil => intro r _; simp [splitOnChar]
  | cons a cs ih =>
    intro r h
    have ha : ¬ a = sep := fun he => h (he ▸ List.mem_cons_self a cs)
    have hcs := ih r (fun hm => h (List.mem_cons_of_mem a hm))
    show splitOnChar sep (a :: (cs ++ sep :: r)) = (a :: cs) :: splitOnChar sep r
    rw [splitOnChar]
    simp only [ha, if_false, hcs]

lemma splitOnChar_joinNewlines :
    ∀ ls : List Str, ls ≠ [] → (∀ p ∈ ls, '\n' ∉ p) →
      splitOnChar '\n' (joinNewlines ls) = ls
  | [], h0, _ => absurd rfl h0
  | [l], _, h => by
    simp only [joinNewlines]
    exact splitOnChar_eq_self '\n' l (h l (List.mem_cons_self l []))
  | l :: l2 :: ls, _, h => by
    have hrec := splitOnChar_joinNewlines (l2 :: ls) (by simp)
      (fun p hp => h p (List.mem_cons_of_mem l hp))
    show splitOnChar '\n' (l ++ '\n' :: joinNewlines (l2 :: ls)) = l :: l2 :: ls
    rw [splitOnChar_append_cons '\n' l _ (h l (List.mem_cons_self l _)), hrec]

lemma charWrapGo_mem_width (cw : Nat) :
    ∀ (cs cur : Str),
      (get_string_display_width cur ≤ cw ∨ cur.length = 1) →
      ∀ L ∈ charWrapGo cw cur cs,
        get_string_display_width L ≤ cw ∨ L.length = 1 := by
  intro cs
  induction cs with
  | nil =>
    intro cur hcur L hL
    unfold charWrapGo at hL
    split at hL
    · simp at hL
    · rw [List.mem_singleton] at hL
      exact hL ▸ hcur
  | cons c cs ih =>
    intro cur hcur L hL
    unfold charWrapGo at hL
    split at hL
    · exact ih (cur ++ [c]) (Or.inl (by assumption)) L hL
    · rcases List.mem_cons.mp hL with h1 | h1
      · exact h1 ▸ hcur
      · exact ih [c] (Or.inr rfl) L h1

lemma wordWrapGo_mem_width (cw : Nat) (words0 : List Str) :
    ∀ (ws : List Str) (cur : Str),
      (get_string_display_width cur ≤ cw ∨ cur ∈ words0) →
      (∀ w ∈ ws, w ∈ words0) →
      ∀ L ∈ wordWrapGo cw cur ws,
        get_string_display_width L ≤ cw ∨ L ∈ words0 := by
  intro ws
  induction ws with
  | nil =>
    intro cur hcur _ L hL
    unfold wordWrapGo at hL
    split at hL
    · simp at hL
    · rw [List.mem_singleton] at hL
      exact hL ▸ hcur
  | cons w ws ih =>
    intro cur hcur hws L hL
    unfold wordWrapGo at hL
    split at hL
    · exact ih _ (Or.inl (by assumption))
        (fun v hv => hws v (List.mem_cons_of_mem w hv)) L hL
    · rcases List.mem_cons.mp hL with h1 | h1
      · exact h1 ▸ hcur
      · exact ih w (Or.inr (hws w (List.mem_cons_self w ws)))
          (fun v hv => hws v (List.mem_cons_of_mem w hv)) L h1

lemma processLine_mem_width (cw : Nat) (line L : Str)
    (hL : L ∈ processLine cw line) :
    get_string_display_width L ≤ cw ∨ L.length = 1 ∨
      L ∈ splitOnChar ' ' line := by
  unfold processLine at hL
  split at hL
  · rw [List.mem_singleton] at hL
    subst hL
    exact Or.inl (by assumption)
  · split at hL
    · rcases charWrapGo_mem_width cw line []
        (Or.inl (by simp [get_string_display_width])) L hL with h | h
      · exact Or.inl h
      · exact Or.inr (Or.inl h)
    · rcases wordWrapGo_mem_width cw (splitOnChar ' ' line) (splitOnChar ' ' line)
        [] (Or.inl (by simp [get_string_display_width])) (fun _ h => h) L hL
        with h | h
      · exact Or.inl h
      · exact Or.inr (Or.inr h)

lemma charWrapGo_chars (cw : Nat) :
    ∀ (cs cur L : Str), L ∈ charWrapGo cw cur cs →
      ∀ c ∈ L, c ∈ cur ∨ c ∈ cs := by
  intro cs
  induction cs with
  | nil =>
    intro cur L hL c hc
    unfold charWrapGo at hL
    split at hL
    · simp at hL
    · rw [List.mem_singleton] at hL
      exact Or.inl (hL ▸ hc)
  | cons a cs ih =>
    intro cur L hL c hc
    unfold charWrapGo at hL
    split at hL
    · rcases ih (cur ++ [a]) L hL c hc with h | h
      · rcases List.mem_append.mp h with h1 | h1
        · exact Or.inl h1
        · rw [List.mem_singleton] at h1
          exact Or.inr (h1 ▸ List.mem_cons_self a cs)
      · exact Or.inr (List.mem_cons_of_mem a h)
    · rcases List.mem_cons.mp hL with h1 | h1
      · exact Or.inl (h1 ▸ hc)
      · rcases ih [a] L h1 c hc with h | h
        · rw [List.mem_singleton] at h
          exact Or.inr (h ▸ List.mem_cons_self a cs)
        · exact Or.inr (List.mem_cons_of_mem a h)

lemma wordWrapGo_chars (cw : Nat) :
    ∀ (ws : List Str) (cur L : Str), L ∈ wordWrapGo cw cur ws →
      ∀ c ∈ L, c ∈ cur ∨ c = ' ' ∨ ∃ w ∈ ws, c ∈ w := by
  intro ws
  induction ws with
  | nil =>
    intro cur L hL c hc
    unfold wordWrapGo at hL
    split at hL
    · simp at hL
    · rw [List.mem_singleton] at hL
      exact Or.inl (hL ▸ hc)
  | cons w ws ih =>
    intro cur L hL c hc
    unfold wordWrapGo at hL
    split at hL
    · rcases ih _ L hL c hc with h | h | h
      · by_cases hcur : cur = []
        · subst hcur
          simp only [testLine, if_pos rfl] at h
          exact Or.inr (Or.inr ⟨w, List.mem_cons_self w ws, h⟩)
        · simp only [testLine, if_neg hcur] at h
          rcases List.mem_append.mp h with h1 | h1
          · exact Or.inl h1
          · rcases List.mem_cons.mp h1 with h2 | h2
            · exact Or.inr (Or.inl h2)
            · exact Or.inr (Or.inr ⟨w, List.mem_cons_self w ws, h2⟩)
      · exact Or.inr (Or.inl h)
      · rcases h with ⟨v, hv, hcv⟩
        exact Or.inr (Or.inr ⟨v, List.mem_cons_of_mem w hv, hcv⟩)
    · rcases List.mem_cons.mp hL with h1 | h1
      · exact Or.inl (h1 ▸ hc)
      · rcases ih w L h1 c hc with h | h | h
        · exact Or.inr (Or.inr ⟨w, List.mem_cons_self w ws, h⟩)
        · exact Or.inr (Or.inl h)
        · rcases h with ⟨v, hv, hcv⟩
          exact Or.inr (Or.inr ⟨v, List.mem_cons_of_mem w hv, hcv⟩)

lemma processLine_chars (cw : Nat) (line L : Str)
    (hL : L ∈ processLine cw line) :
    ∀ c ∈ L, c ∈ line ∨ c = ' ' := by
  intro c hc
  unfold processLine at hL
  split at hL
  · rw [List.mem_singleton] at hL
    exact Or.inl (hL ▸ hc)
  · split at hL
    · rcases charWrapGo_chars cw line [] L hL c hc with h | h
      · simp at h
      · exact Or.inl h
    · rcases wordWrapGo_chars cw (splitOnChar ' ' line) [] L hL c hc with h | h | h
      · simp at h
      · exact Or.inr h
      · rcases h with ⟨w, hw, hcw⟩
        exact Or.inl (mem_of_mem_splitOnChar ' ' line w hw c hcw)

lemma process_text_to_lines_no_newline (cw : Nat) (text L : Str)
    (hL : L ∈ process_text_to_lines cw text) : '\n' ∉ L := by
  intro hmem
  rcases List.mem_flatMap.mp hL with ⟨seg, hseg, hLseg⟩
  rcases processLine_chars cw seg L hLseg '\n' hmem with h | h
  · exact not_mem_of_mem_splitOnChar '\n' text seg hseg h
  · exact absurd h (by decide)

lemma processLine_of_fits (cw : Nat) (line : Str)
    (h : get_string_display_width line ≤ cw) :
    processLine cw line = [line] := by
  unfold processLine
  rw [if_pos h]

lemma flatMap_processLine_fits (cw : Nat) :
    ∀ ls : List Str, (∀ L ∈ ls, get_string_display_width L ≤ cw) →
      ls.flatMap (processLine cw) = ls := by
  intro ls
  induction ls with
  | nil => intro _; rfl
  | cons l ls ih =>
    intro h
    rw [List.flatMap_cons, processLine_of_fits cw l (h l (List.mem_cons_self l ls)),
      ih (fun L hL => h L (List.mem_cons_of_mem l hL))]
    rfl

lemma countSystem_cons (m : Message) (ms : List Message) :
    countSystem (m :: ms) =
      countSystem ms + (if m.role == sysRole then 1 else 0) := by
  simp [countSystem, List.countP_cons]

lemma switch_persona_length (prompt : Str) :
    ∀ ctx : List Message, (switch_persona prompt ctx).length = ctx.length := by
  intro ctx
  induction ctx with
  | nil => rfl
  | cons m ms ih =>
    unfold switch_persona
    split
    · simp
    · simp [ih]

lemma switch_persona_countSystem (prompt : Str) :
    ∀ ctx : List Message,
      countSystem (switch_persona prompt ctx) = countSystem ctx := by
  intro ctx
  induction ctx with
  | nil => rfl
  | cons m ms ih =>
    unfold switch_persona
    split
    · simp_all [countSystem, List.countP_cons, sysRole]
    · simp_all [countSystem, List.countP_cons]

lemma switch_persona_getElem_nonsys (prompt : Str) :
    ∀ (ctx : List Message) (i : Nat) (m : Message), ctx[i]? = some m →
      m.role ≠ sysRole → (switch_persona prompt ctx)[i]? = some m := by
  intro ctx
  induction ctx with
  | nil => intro i m h _; simp at h
  | cons a ms ih =>
    intro i m h hm
    unfold switch_persona
    by_cases ha : a.role == sysRole
    · rw [if_pos ha]
      cases i with
      | zero =>
        rw [List.getElem?_cons_zero] at h
        have ham : a = m := Option.some.inj h
        exact absurd (ham ▸ (eq_of_beq ha)) hm
      | succ i =>
        rw [List.getElem?_cons_succ] at h
        rw [List.getElem?_cons_succ]
        exact h
    · rw [if_neg ha]
      cases i with
      | zero =>
        rw [List.getElem?_cons_zero] at h
        rw [List.getElem?_cons_zero]
        exact h
      | succ i =>
        rw [List.getElem?_cons_succ] at h
        rw [List.getElem?_cons_succ]
        exact ih i m h hm

lemma switch_persona_getElem_sys (prompt : Str) :
    ∀ (ctx : List Message) (i : Nat) (m : Message), countSystem ctx = 1 →
      ctx[i]? = some m → m.role = sysRole →
      (switch_persona prompt ctx)[i]? = some ⟨sysRole, prompt⟩ := by
  intro ctx
  induction ctx with
  | nil => intro i m _ h _; simp at h
  | cons a ms ih =>
    intro i m hc h hm
    unfold switch_persona
    by_cases ha : a.role == sysRole
    · rw [if_pos ha]
      have hms : countSystem ms = 0 := by
        rw [countSystem_cons, if_pos ha] at hc
        omega
      cases i with
      | zero => simp
      | succ i =>
        rw [List.getElem?_cons_succ] at h
        have hmem : m ∈ ms := List.getElem?_mem h
        have := (List.countP_eq_zero.mp hms) m hmem
        simp [hm, sysRole] at this
    · rw [if_neg ha]
      have hms : countSystem ms = 1 := by
        rw [countSystem_cons, if_neg ha] at hc
        omega
      cases i with
      | zero =>
        rw [List.getElem?_cons_zero] at h
        have : a = m := Option.some.inj h
        subst this
        exact absurd (by simp [hm]) ha
      | succ i =>
        rw [List.getElem?_cons_succ] at h
        rw [List.getElem?_cons_succ]
        exact ih i m hms h hm

lemma switch_persona_foldl :
    ∀ (ps : List Str) (ctx : List Message),
      countSystem (ps.foldl (fun c q => switch_persona q c) ctx) =
        countSystem ctx := by
  intro ps
  induction ps with
  | nil => intro ctx; rfl
  | cons p ps ih =>
    intro ctx
    rw [List.foldl_cons, ih (switch_persona p ctx), switch_persona_countSystem]

/-- C1 counterexample: on a context of 21 `system` messages (length
above the ceiling), compacting twice does not equal compacting once —
the compacted list still exceeds 20 messages, so the rule fires again
and duplicates the recent window a second time. -/
theorem compact_not_idempotent_many_system :
    20 < all_system_context.length ∧
      compact_context (compact_context all_system_context) ≠
        compact_context all_system_context := by decide

/-- C1 (amended): for every context longer than 20 messages, compaction
yields exactly all `system` messages followed by the 10 most recent
messages in order; when exactly one `system` message exists the result
has length at most 1 + 10; no `system` message is ever removed; and —
restricted to contexts with exactly one `system` message, which is what
the session invariant guarantees — compacting twice equals compacting
once. -/
theorem compact_safety (ctx : List Message) (h : 20 < ctx.length) :
    compact_context ctx =
      ctx.filter (fun m => m.role == sysRole) ++
        ctx.drop (ctx.length - 10) ∧
    (countSystem ctx = 1 → (compact_context ctx).length ≤ 11) ∧
    (∀ m ∈ ctx, m.role = sysRole → m ∈ compact_context ctx) ∧
    (countSystem ctx = 1 →
      compact_context (compact_context ctx) = compact_context ctx) := by
  have hdef : compact_context ctx =
      ctx.filter (fun m => m.role == sysRole) ++
        ctx.drop (ctx.length - 10) := by
    unfold compact_context
    rw [if_pos h]
  have hlen : countSystem ctx = 1 → (compact_context ctx).length = 11 := by
    intro hc
    rw [hdef, List.length_append, List.length_drop]
    have hf : (ctx.filter (fun m => m.role == sysRole)).length = 1 := by
      rw [← List.countP_eq_length_filter]
      exact hc
    omega
  refine ⟨hdef, ?_, ?_, ?_⟩
  · intro hc
    rw [hlen hc]
  · intro m hm hrole
    rw [hdef]
    exact List.mem_append_left _ (List.mem_filter.mpr ⟨hm, by simp [hrole]⟩)
  · intro hc
    have h11 := hlen hc
    conv_lhs => rw [compact_context]
    rw [if_neg (by omega)]

/-- C1 witness: the amended statement holds on a concrete context of one
system message followed by 20 user messages. -/
theorem compact_safety_witness :
    20 < long_context.length ∧
    (compact_context long_context =
      long_context.filter (fun m => m.role == sysRole) ++
        long_context.drop (long_context.length - 10) ∧
    (countSystem long_context = 1 →
      (compact_context long_context).length ≤ 11) ∧
    (∀ m ∈ long_context, m.role = sysRole →
      m ∈ compact_context long_context) ∧
    (countSystem long_context = 1 →
      compact_context (compact_context long_context) =
        compact_context long_context)) :=
  ⟨by decide, compact_safety long_context (by decide)⟩

/-- C5: every line produced by the wrapper either fits within
`content_width`, or is a single character, or is a single
whitespace-delimited word of one of the newline-separated segments of
the input (the oversized-unit exception). -/
theorem wrap_width_bound (text : Str) (cw : Nat) (L : Str)
    (hL : L ∈ process_text_to_lines cw text) :
    get_string_display_width L ≤ cw ∨ L.length = 1 ∨
      ∃ seg ∈ splitOnChar '\n' text, L ∈ splitOnChar ' ' seg := by
  rcases List.mem_flatMap.mp hL with ⟨seg, hseg, hLseg⟩
  rcases processLine_mem_width cw seg L hLseg with h | h | h
  · exact Or.inl h
  · exact Or.inr (Or.inl h)
  · exact Or.inr (Or.inr ⟨seg, hseg, h⟩)

/-- C5 witness: the bound statement instantiated on a concrete oversized
word. -/
theorem wrap_width_bound_witness :
    "aaa".data ∈ process_text_to_lines 2 "aaa".data ∧
    (get_string_display_width "aaa".data ≤ 2 ∨ "aaa".data.length = 1 ∨
      ∃ seg ∈ splitOnChar '\n' "aaa".data,
        "aaa".data ∈ splitOnChar ' ' seg) :=
  ⟨by decide, wrap_width_bound "aaa".data 2 "aaa".data (by decide)⟩

/-- C6 counterexample: wrapping three spaces at width 2 produces no
lines although no unit (word or character-fit check) exceeds the width;
re-wrapping the joined (empty) output yields one empty line instead of
the empty line list, so idempotence fails outside the claimed
single-unit-exceeds-width exception. -/
theorem wrap_not_idempotent_all_space_segment :
    (∀ seg ∈ splitOnChar '\n' "   ".data, ∀ w ∈ splitOnChar ' ' seg,
        get_string_display_width w ≤ 2) ∧
    (∀ L ∈ process_text_to_lines 2 "   ".data,
        get_string_display_width L ≤ 2) ∧
    process_text_to_lines 2 "   ".data = [] ∧
    process_text_to_lines 2
        (joinNewlines (process_text_to_lines 2 "   ".data)) ≠
      process_text_to_lines 2 "   ".data := by decide

/-- C6 (amended): re-wrapping the joined output of the wrapper with the
same width yields the same line sequence, provided every produced line
fits within the width (the single-unit-exceeds-width exception) and the
output is non-empty (an all-space segment wider than the width wraps to
no lines, and re-wrapping then yields one empty line instead). -/
theorem wrap_idempotent_of_fits (cw : Nat) (text : Str)
    (h1 : ∀ L ∈ process_text_to_lines cw text,
      get_string_display_width L ≤ cw)
    (h2 : process_text_to_lines cw text ≠ []) :
    process_text_to_lines cw
        (joinNewlines (process_text_to_lines cw text)) =
      process_text_to_lines cw text := by
  have hnl : ∀ L ∈ process_text_to_lines cw text, '\n' ∉ L :=
    fun L hL => process_text_to_lines_no_newline cw text L hL
  conv_lhs => rw [process_text_to_lines]
  rw [splitOnChar_joinNewlines _ h2 hnl]
  exact flatMap_processLine_fits cw _ h1

/-- C6 witness: idempotence on a concrete two-word wrap. -/
theorem wrap_idempotent_of_fits_witness :
    (∀ L ∈ process_text_to_lines 5 "hello world".data,
        get_string_display_width L ≤ 5) ∧
    process_text_to_lines 5 "hello world".data ≠ [] ∧
    process_text_to_lines 5
        (joinNewlines (process_text_to_lines 5 "hello world".data)) =
      process_text_to_lines 5 "hello world".data :=
  ⟨by decide, by decide,
    wrap_idempotent_of_fits 5 "hello world".data (by decide) (by decide)⟩

/-- C7 counterexample: the bordered normal-mode renderer that the
interactive session actually uses (utils/terminal.py) computes
`terminal_width - 4` with no 100-column cap, so at terminal width 200
its content region is 196 columns. -/
theorem normal_mode_width_uncapped :
    print_normal_mode_content_width 200 = 196 ∧
    print_normal_mode_content_width 200 ≠
      main_print_with_borders_content_width 200 ∧
    ¬ print_normal_mode_content_width 200 ≤ 100 := by decide

/-- C7 (amended): the one-shot renderer in main.py computes its content
width as `min(terminal_width - 4, 100)` and therefore never exceeds 100
columns, while the interactive renderer in utils/terminal.py computes
`terminal_width - 4` with no cap. -/
theorem content_width_formulas (tw : Int) :
    main_print_with_borders_content_width tw = min (tw - 4) 100 ∧
    main_print_with_borders_content_width tw ≤ 100 ∧
    print_normal_mode_content_width tw = tw - 4 :=
  ⟨rfl, min_le_right _ _, rfl⟩

/-- C8: on every successful (200-status) parse branch of the dispatcher
— Ollama `message.content`, the Ollama `choices` fallback, and the
OpenAI `choices[0].message.content` path — the returned text is exactly
`filter_think_tags` applied to the extracted content. -/
theorem success_paths_filter_think_tags (isLocal : Bool)
    (resp : ApiResponse) (c : Str)
    (h : success_content isLocal resp = some c) :
    call_ai_api isLocal (HttpOutcome.ok resp) = filter_think_tags c := by
  cases isLocal with
  | false =>
    simp only [success_content, Bool.false_eq_true, if_false] at h
    simp only [call_ai_api, Bool.false_eq_true, if_false, h]
  | true =>
    simp only [success_content, if_true] at h
    cases hm : resp.messageContent with
    | some c0 =>
      rw [hm] at h
      simp only [Option.some.injEq] at h
      simp [call_ai_api, hm, h]
    | none =>
      rw [hm] at h
      simp only [Option.some.injEq] at h
      simp [call_ai_api, hm, h]

/-- C8 witness: the OpenAI branch at a concrete think-tagged response. -/
theorem success_paths_filter_think_tags_witness :
    success_content false
        ⟨none, some "<think>deliberation</think>  收到".data⟩ =
      some "<think>deliberation</think>  收到".data ∧
    call_ai_api false
        (HttpOutcome.ok ⟨none, some "<think>deliberation</think>  收到".data⟩) =
      filter_think_tags "<think>deliberation</think>  收到".data :=
  ⟨by decide, success_paths_filter_think_tags false _ _ (by decide)⟩

/-- C10: when a segment is wrapped at word granularity (no wide code
point, total width above the bound) and its first word already exceeds
`content_width`, the wrapper's output for that segment begins with an
empty line: the empty accumulated line is flushed before the oversized
word. -/
theorem oversized_first_word_emits_empty_line (cw : Nat) (seg w0 : Str)
    (ws : List Str)
    (h1 : seg.any (fun c => 127 < c.toNat) = false)
    (h2 : cw < get_string_display_width seg)
    (h3 : splitOnChar ' ' seg = w0 :: ws)
    (h4 : cw < get_string_display_width w0) :
    ∃ rest, processLine cw seg = [] :: rest := by
  refine ⟨wordWrapGo cw w0 ws, ?_⟩
  unfold processLine
  rw [if_neg (Nat.not_le.mpr h2), h1]
  simp only [Bool.false_eq_true, if_false]
  rw [h3, wordWrapGo]
  simp only [testLine, eq_self_iff_true, if_true]
  rw [if_neg (Nat.not_le.mpr h4)]

/-- C10 witness: the empty leading line at a concrete oversized word. -/
theorem oversized_first_word_emits_empty_line_witness :
    "aaa".data.any (fun c => 127 < c.toNat) = false ∧
    2 < get_string_display_width "aaa".data ∧
    splitOnChar ' ' "aaa".data = ["aaa".data] ∧
    (∃ rest, processLine 2 "aaa".data = [] :: rest) :=
  ⟨by decide, by decide, by decide,
    oversized_first_word_emits_empty_line 2 "aaa".data "aaa".data []
      (by decide) (by decide) (by decide) (by decide)⟩

/-- C3: persona switching is an in-place frame-preserving update on any
context with exactly one `system` message: the length is preserved, the
`system` message count stays exactly 1, every non-`system` message keeps
its position and content, the unique `system` position now carries the
new prompt, and after any sequence of switches the context still has
exactly one `system` message. -/
theorem switch_persona_frame_preserving (prompt : Str)
    (ctx : List Message) (h : countSystem ctx = 1) :
    (switch_persona prompt ctx).length = ctx.length ∧
    countSystem (switch_persona prompt ctx) = 1 ∧
    (∀ (i : Nat) (m : Message), ctx[i]? = some m → m.role ≠ sysRole →
      (switch_persona prompt ctx)[i]? = some m) ∧
    (∀ (i : Nat) (m : Message), ctx[i]? = some m → m.role = sysRole →
      (switch_persona prompt ctx)[i]? = some ⟨sysRole, prompt⟩) ∧
    (∀ ps : List Str,
      countSystem (ps.foldl (fun c q => switch_persona q c) ctx) = 1) :=
  ⟨switch_persona_length prompt ctx,
   by rw [switch_persona_countSystem]; exact h,
   fun i m hm hr => switch_persona_getElem_nonsys prompt ctx i m hm hr,
   fun i m hm hr => switch_persona_getElem_sys prompt ctx i m h hm hr,
   fun ps => by rw [switch_persona_foldl]; exact h⟩

/-- C3 witness: the frame property instantiated on the seeded context
and the frontend persona's prompt. -/
theorem switch_persona_frame_preserving_witness :
    countSystem initial_conversation_context = 1 ∧
    ((switch_persona frontendPersona.system_prompt
        initial_conversation_context).length =
      initial_conversation_context.length ∧
    countSystem (switch_persona frontendPersona.system_prompt
        initial_conversation_context) = 1 ∧
    (∀ (i : Nat) (m : Message),
      initial_conversation_context[i]? = some m → m.role ≠ sysRole →
      (switch_persona frontendPersona.system_prompt
          initial_conversation_context)[i]? = some m) ∧
    (∀ (i : Nat) (m : Message),
      initial_conversation_context[i]? = some m → m.role = sysRole →
      (switch_persona frontendPersona.system_prompt
          initial_conversation_context)[i]? =
        some ⟨sysRole, frontendPersona.system_prompt⟩) ∧
    (∀ ps : List Str,
      countSystem (ps.foldl (fun c q => switch_persona q c)
        initial_conversation_context) = 1)) :=
  ⟨by decide,
    switch_persona_frame_preserving frontendPersona.system_prompt
      initial_conversation_context (by decide)⟩

/-- C4 counterexample: a dispatch that fails with a non-2xx status does
NOT set the result's error field — `call_ai_api` catches the failure and
returns the message as its value, so the worker stores it in the text
field (`ai_response`) and `error` stays unset. -/
theorem dispatch_http_failure_sets_text_not_error :
    (dispatch_request false
        (HttpOutcome.badStatus 500 "Internal Server Error".data)).error =
      none ∧
    (dispatch_request false
        (HttpOutcome.badStatus 500 "Internal Server Error".data)).ai_response ≠
      none := by decide

/-- C4 (amended): only a dispatch in which `call_ai_api` RAISES an
exception produces a result whose error field holds the message with the
text field unset (network errors, non-2xx statuses and malformed
payloads are caught inside the client and returned in the text field);
for such a raised error the session resolves the result to the apology
text followed by the message, appends it as the assistant turn of a
plain-message turn, and does not terminate the loop. -/
theorem dispatch_raised_error_surfacing (e : Str) (he : e ≠ [])
    (curRole : Str) (ctx : List Message) (input : Str)
    (h1 : isExitInput input = false)
    (h2 : isSlashInput input = false)
    (h3 : pyStrip input ≠ []) :
    (api_call_thread (Except.error e)).error = some e ∧
    (api_call_thread (Except.error e)).ai_response = none ∧
    resolve_response (api_call_thread (Except.error e)) =
      some (apology_msg ++ e) ∧
    apology_msg.isPrefixOf (apology_msg ++ e) = true ∧
    (stepTurn curRole ctx input (apology_msg ++ e)).terminated = false ∧
    (stepTurn curRole ctx input (apology_msg ++ e)).newCtx =
      compact_context (ctx ++
        [⟨userRole, input⟩, ⟨assistantRole, apology_msg ++ e⟩]) := by
  refine ⟨rfl, rfl, ?_, ?_, ?_, ?_⟩
  · simp [resolve_response, api_call_thread, he]
  · exact List.isPrefixOf_iff_prefix.mpr (List.prefix_append _ _)
  · simp [stepTurn, h1, h2, h3]
  · simp [stepTurn, h1, h2, h3]

/-- C4 witness: the amended statement at a concrete raised error and a
concrete plain-message turn. -/
theorem dispatch_raised_error_surfacing_witness :
    "boom".data ≠ ([] : Str) ∧
    isExitInput "hello".data = false ∧
    isSlashInput "hello".data = false ∧
    pyStrip "hello".data ≠ [] ∧
    ((api_call_thread (Except.error "boom".data)).error =
        some "boom".data ∧
     (api_call_thread (Except.error "boom".data)).ai_response = none ∧
     resolve_response (api_call_thread (Except.error "boom".data)) =
       some (apology_msg ++ "boom".data) ∧
     apology_msg.isPrefixOf (apology_msg ++ "boom".data) = true ∧
     (stepTurn "default".data initial_conversation_context "hello".data
         (apology_msg ++ "boom".data)).terminated = false ∧
     (stepTurn "default".data initial_conversation_context "hello".data
         (apology_msg ++ "boom".data)).newCtx =
       compact_context (initial_conversation_context ++
         [⟨userRole, "hello".data⟩,
          ⟨assistantRole, apology_msg ++ "boom".data⟩])) :=
  ⟨by decide, by decide, by decide, by decide,
    dispatch_raised_error_surfacing "boom".data (by decide)
      "default".data initial_conversation_context "hello".data
      (by decide) (by decide) (by decide)⟩

set_option maxRecDepth 8192 in
/-- C2 (bug evaluation): a persona-switch-with-inline-message turn on a
21-message context appends the user and assistant turns and returns with
23 messages — above the 20-message ceiling — because the inline branch
omits the trimming block that the plain-message path runs after every
assistant append; applying the compaction rule to the resulting context
would change it. -/
theorem inline_switch_skips_compaction :
    (stepTurn "default".data long_context "/frontend hi".data
        "resp".data).dispatched = true ∧
    (stepTurn "default".data long_context "/frontend hi".data
        "resp".data).newCtx.length = 23 ∧
    20 < (stepTurn "default".data long_context "/frontend hi".data
        "resp".data).newCtx.length ∧
    compact_context ((stepTurn "default".data long_context
        "/frontend hi".data "resp".data).newCtx) ≠
      (stepTurn "default".data long_context "/frontend hi".data
        "resp".data).newCtx := by decide

lemma findRole_cases (key : Str) (p : Persona)
    (hk : findRole key = some p) :
    (key = "default".data ∧ p = defaultPersona) ∨
    (key = "frontend".data ∧ p = frontendPersona) ∨
    (key = "backend".data ∧ p = backendPersona) ∨
    (key = "secretary".data ∧ p = secretaryPersona) := by
  unfold findRole roles at hk
  cases hb1 : (key == "default".data) with
  | true =>
    simp only [List.lookup, hb1] at hk
    exact Or.inl ⟨eq_of_beq hb1, (Option.some.inj hk).symm⟩
  | false =>
    cases hb2 : (key == "frontend".data) with
    | true =>
      simp only [List.lookup, hb1, hb2] at hk
      exact Or.inr (Or.inl ⟨eq_of_beq hb2, (Option.some.inj hk).symm⟩)
    | false =>
      cases hb3 : (key == "backend".data) with
      | true =>
        simp only [List.lookup, hb1, hb2, hb3] at hk
        exact Or.inr (Or.inr (Or.inl
          ⟨eq_of_beq hb3, (Option.some.inj hk).symm⟩))
      | false =>
        cases hb4 : (key == "secretary".data) with
        | true =>
          simp only [List.lookup, hb1, hb2, hb3, hb4] at hk
          exact Or.inr (Or.inr (Or.inr
            ⟨eq_of_beq hb4, (Option.some.inj hk).symm⟩))
        | false =>
          simp only [List.lookup, hb1, hb2, hb3, hb4] at hk
          exact Option.noConfusion hk

/-- C9 counterexample: the input `"/frontend "` (a known persona key
followed by whitespace only) is stripped before splitting, so it reaches
the switch-only branch: the session DOES switch the active persona, DOES
mutate the context's system message, prints the switch notice (not a
usage prompt), and performs no dispatch. -/
theorem slash_key_trailing_space_switches :
    (stepTurn "default".data initial_conversation_context
        "/frontend ".data "r".data).newRole = "frontend".data ∧
    (stepTurn "default".data initial_conversation_context
        "/frontend ".data "r".data).newCtx ≠
      initial_conversation_context ∧
    (stepTurn "default".data initial_conversation_context
        "/frontend ".data "r".data).dispatched = false ∧
    (stepTurn "default".data initial_conversation_context
        "/frontend ".data "r".data).notice =
      some (switch_notice frontendPersona) := by decide

/-- C9 (amended): for every input consisting of `/` plus a known persona
key plus trailing whitespace only, the session switches the active
persona, replaces the system message content in place, performs no
dispatch, appends no message, and prints a switch notice; the
usage-prompt branch is unreachable for such inputs because the input is
stripped of trailing whitespace before being split. -/
theorem slash_key_trailing_space_behavior (key : Str) (persona : Persona)
    (trail : Str) (curRole : Str) (ctx : List Message) (resp : Str)
    (hk : findRole key = some persona)
    (ht : ∀ c ∈ trail, pyIsSpace c = true) :
    stepTurn curRole ctx ('/' :: (key ++ trail)) resp =
      ⟨key, switch_persona persona.system_prompt ctx, false, false,
        some (switch_notice persona)⟩ := by
  rcases findRole_cases key persona hk with
    ⟨hkey, hp⟩ | ⟨hkey, hp⟩ | ⟨hkey, hp⟩ | ⟨hkey, hp⟩ <;>
    subst hkey <;> subst hp
  · have hs : pyStrip ('/' :: ("default".data ++ trail)) =
        "/default".data := by
      have h := pyStrip_append_spaces ('/' :: "default".data) trail ht
      calc pyStrip ('/' :: ("default".data ++ trail))
          = pyStrip (('/' :: "default".data) ++ trail) := rfl
        _ = pyStrip ('/' :: "default".data) := h
        _ = "/default".data := by decide
    unfold stepTurn isExitInput isSlashInput
    rw [hs]
    rfl
  · have hs : pyStrip ('/' :: ("frontend".data ++ trail)) =
        "/frontend".data := by
      have h := pyStrip_append_spaces ('/' :: "frontend".data) trail ht
      calc pyStrip ('/' :: ("frontend".data ++ trail))
          = pyStrip (('/' :: "frontend".data) ++ trail) := rfl
        _ = pyStrip ('/' :: "frontend".data) := h
        _ = "/frontend".data := by decide
    unfold stepTurn isExitInput isSlashInput
    rw [hs]
    rfl
  · have hs : pyStrip ('/' :: ("backend".data ++ trail)) =
        "/backend".data := by
      have h := pyStrip_append_spaces ('/' :: "backend".data) trail ht
      calc pyStrip ('/' :: ("backend".data ++ trail))
          = pyStrip (('/' :: "backend".data) ++ trail) := rfl
        _ = pyStrip ('/' :: "backend".data) := h
        _ = "/backend".data := by decide
    unfold stepTurn isExitInput isSlashInput
    rw [hs]
    rfl
  · have hs : pyStrip ('/' :: ("secretary".data ++ trail)) =
        "/secretary".data := by
      have h := pyStrip_append_spaces ('/' :: "secretary".data) trail ht
      calc pyStrip ('/' :: ("secretary".data ++ trail))
          = pyStrip (('/' :: "secretary".data) ++ trail) := rfl
        _ = pyStrip ('/' :: "secretary".data) := h
        _ = "/secretary".data := by decide
    unfold stepTurn isExitInput isSlashInput
    rw [hs]
    rfl

/-- C9 witness: the amended behavior at a concrete key and whitespace
tail. -/
theorem slash_key_trailing_space_behavior_witness :
    findRole "backend".data = some backendPersona ∧
    (∀ c ∈ [' ', '\t'], pyIsSpace c = true) ∧
    stepTurn "default".data initial_conversation_context
        ('/' :: ("backend".data ++ [' ', '\t'])) "r".data =
      ⟨"backend".data,
       switch_persona backendPersona.system_prompt
         initial_conversation_context,
       false, false, some (switch_notice backendPersona)⟩ :=
  ⟨by rfl, by decide,
    slash_key_trailing_space_behavior "backend".data backendPersona
      [' ', '\t'] "default".data initial_conversation_context "r".data
      (by rfl) (by decide)⟩
